import Mathlib

/-!
# temperature-sensor: sampling, windowed aggregation and publish-with-retry

A shallow embedding of `temp/temp.go` and `main.go`.

Modelling conventions
* Go `float64` values are modelled by exact rationals (`ℚ`): every statement about
  temperatures below is a statement in exact arithmetic, without binary rounding, NaN or
  infinities.  `math.MaxFloat64` is its exact rational value.  Where an exact intermediate
  average is a rounding tie of `round2` (raw samples 2 then 4095 give exactly 0.025), `float64`
  can round the other way; the concrete computations below stay away from ties.
* Go `uint` is modelled by `Nat` with explicit wrap-around modulo `2 ^ 64`.
* `time.Time` (always produced by `time.Now().UTC()`, hence without monotonic reading) is an
  integer number of nanoseconds; `time.Duration` is an `int64` number of nanoseconds and
  `Time.Sub` saturates as in the Go library.
* The channels and goroutines are not modelled: a loop that receives from a channel becomes a
  fold over the list of received values.
* A run-time panic is the `none` result of an `Option`.
-/

namespace TemperatureSensor

/-! ## Library types and functions used by the program -/

/-- Number of values of the Go type `uint` (64-bit platforms). -/
def uintModulus : Nat := 2 ^ 64

/-- A `time.Time` as nanoseconds since the epoch. -/
abbrev Time := Int

/-- A `time.Duration`: nanoseconds, an `int64`. -/
abbrev Duration := Int

/-- The constant `minDuration` of package `time`. -/
def minDuration : Duration := -(2 ^ 63)

/-- The constant `maxDuration` of package `time`. -/
def maxDuration : Duration := 2 ^ 63 - 1

/-- The method `Time.Sub`: the difference `t - u`, saturated to the range of `Duration`. -/
def Time.Sub (t u : Time) : Duration :=
  if t - u < minDuration then minDuration
  else if maxDuration < t - u then maxDuration
  else t - u

/-- The constant `math.MaxFloat64`, exactly. -/
def MaxFloat64 : ℚ := (2 ^ 53 - 1) * 2 ^ 971

/-- The function `math.Round`: nearest integer, halves away from zero. -/
def mathRound (x : ℚ) : ℚ :=
  if 0 ≤ x then ((⌊x + 1 / 2⌋ : ℤ) : ℚ) else ((⌈x - 1 / 2⌉ : ℤ) : ℚ)

/-! ## package temp -/

def MAX_RAW_READING : ℚ := 4095

def MAX_TEMP : ℚ := 50

def MIN_TEMP : ℚ := -50

structure TemperatureReading where
  Temperature : ℚ
  TimeStamp : Time
  deriving DecidableEq

structure MeasurementTime where
  Start : Time
  End : Time
  deriving DecidableEq

structure TemperatureMeasurement where
  Time : MeasurementTime
  Min : ℚ
  Max : ℚ
  Average : ℚ
  deriving DecidableEq

/-- The fields of `ReadingsProcessor` that are not channels. -/
structure ReadingsProcessor where
  readingCount : Nat
  measurement : TemperatureMeasurement
  PublishingInterval : Duration
  deriving DecidableEq

def lerp (val min max : ℚ) : ℚ :=
  val * (max - min) + min

def rawTempToFloat (raw : Nat) : ℚ :=
  lerp ((raw : ℚ) / MAX_RAW_READING) MIN_TEMP MAX_TEMP

/-- The function `accumulateAverage`: `avg + (val-avg)/float64(n+1)`, where the sum `n+1` is a
`uint` sum. -/
def accumulateAverage (avg val : ℚ) (n : Nat) : ℚ :=
  avg + (val - avg) / (((n + 1) % uintModulus : Nat) : ℚ)

def round2 (val : ℚ) : ℚ :=
  mathRound (val * 100) / 100

/-- The method `reset`; `now1` and `now2` are the results of its two calls of `time.Now().UTC()`. -/
def ReadingsProcessor.reset (processor : ReadingsProcessor) (now1 now2 : Time) :
    ReadingsProcessor :=
  { processor with
    readingCount := 0
    measurement :=
      { Time := { Start := now1, End := now2 }
        Min := MaxFloat64
        Max := -MaxFloat64
        Average := 0 } }

def ReadingsProcessor.accumulate (processor : ReadingsProcessor)
    (reading : TemperatureReading) : ReadingsProcessor :=
  let currMeasurement := processor.measurement
  let startTime :=
    if processor.readingCount = 0 then reading.TimeStamp else currMeasurement.Time.Start
  let average :=
    accumulateAverage currMeasurement.Average reading.Temperature processor.readingCount
  let min := Min.min currMeasurement.Min reading.Temperature
  let max := Max.max currMeasurement.Max reading.Temperature
  { processor with
    readingCount := (processor.readingCount + 1) % uintModulus
    measurement :=
      { Time := { Start := startTime, End := reading.TimeStamp }
        Min := round2 min
        Max := round2 max
        Average := round2 average } }

def ReadingsProcessor.shouldPublish (processor : ReadingsProcessor) : Bool :=
  let startTime := processor.measurement.Time.Start
  let endTime := processor.measurement.Time.End
  decide (processor.PublishingInterval ≤ Time.Sub endTime startTime)

/-- One turn of the loop of `Run` for a received reading: the new processor and the measurement
sent on the output channel, if any.  `now1`, `now2` are the clock values a `reset` would read. -/
def ReadingsProcessor.runStep (processor : ReadingsProcessor) (reading : TemperatureReading)
    (now1 now2 : Time) : ReadingsProcessor × Option TemperatureMeasurement :=
  let processor1 := processor.accumulate reading
  if processor1.shouldPublish then
    (processor1.reset now1 now2, some processor1.measurement)
  else
    (processor1, none)

/-- The loop of `Run` over the readings received (each with the clock values of a possible
`reset`), after the initial `reset` has been done: the final processor and the measurements sent,
in order. -/
def ReadingsProcessor.runLoop (processor : ReadingsProcessor) :
    List (TemperatureReading × Time × Time) →
      ReadingsProcessor × List TemperatureMeasurement
  | [] => (processor, [])
  | (reading, now1, now2) :: rest =>
    let r := processor.runStep reading now1 now2
    let r2 := ReadingsProcessor.runLoop r.1 rest
    (r2.1, r.2.toList ++ r2.2)

/-- The method `Run` on the readings received before the quit signal. -/
def ReadingsProcessor.Run (processor : ReadingsProcessor) (now1 now2 : Time)
    (received : List (TemperatureReading × Time × Time)) :
    ReadingsProcessor × List TemperatureMeasurement :=
  (processor.reset now1 now2).runLoop received

/-- Repeated `accumulate`, one reading after the other. -/
def accumulateAll (processor : ReadingsProcessor) (readings : List TemperatureReading) :
    ReadingsProcessor :=
  readings.foldl ReadingsProcessor.accumulate processor

/-! ## package main -/

/-- The slice expression `s[lo:hi]` on a slice with `hi` within its capacity. -/
def sliceExpr {α : Type} (s : List α) (lo hi : Nat) : List α :=
  (s.take hi).drop lo

/-- The field `missing` of `OutboundMeasurements` (the other field is a channel). -/
structure OutboundMeasurements where
  missing : List TemperatureMeasurement
  deriving DecidableEq

/-- What `http.Post` returns: a response with its status code and a nil error, or a nil response
and an error. -/
inductive PostResult where
  | response (StatusCode : Int)
  | error
  deriving DecidableEq

/-- What `json.Marshal` was applied to. -/
inductive Payload where
  | single (measurement : TemperatureMeasurement)
  | batch (measurements : List TemperatureMeasurement)
  deriving DecidableEq

/-- A call of `http.Post`. -/
structure PostCall where
  url : String
  body : Payload
  deriving DecidableEq

def temperatureUrl : String := "http://localhost:5000/api/temperature"

def missingUrl : String := "http://localhost:5000/api/temperature/missing"

/-- The function `postJson`, given what `http.Post` returns: with a nil response the deferred
`resp.Body.Close()` dereferences nil and the program panics (`none`). -/
def postJson (result : PostResult) : Option Bool :=
  match result with
  | PostResult.response statusCode => some (statusCode != 500)
  | PostResult.error => none

def OutboundMeasurements.AddMissing (outbound : OutboundMeasurements)
    (measurement : TemperatureMeasurement) : OutboundMeasurements :=
  let missing := outbound.missing ++ [measurement]
  if missing.length > 10 then
    { outbound with missing := sliceExpr missing 1 11 }
  else
    { outbound with missing := missing }

/-- The method `PublishMissing`; `result` is what `http.Post` returns if it is called.  The value
is the list of calls of `http.Post` made and the state afterwards (`none` after a panic). -/
def OutboundMeasurements.PublishMissing (outbound : OutboundMeasurements)
    (result : PostResult) : List PostCall × Option OutboundMeasurements :=
  if outbound.missing.length = 0 then
    ([], some outbound)
  else
    let call : PostCall := { url := missingUrl, body := Payload.batch outbound.missing }
    match postJson result with
    | none => ([call], none)
    | some true => ([call], some { outbound with missing := sliceExpr outbound.missing 0 0 })
    | some false => ([call], some outbound)

/-- One turn of the loop of `publishMeasurements` for a received measurement; `primary` and
`flush` are what `http.Post` returns for the post of the measurement and for the post of the
retry buffer. -/
def publishCycle (outbound : OutboundMeasurements) (measurement : TemperatureMeasurement)
    (primary flush : PostResult) : List PostCall × Option OutboundMeasurements :=
  let call : PostCall := { url := temperatureUrl, body := Payload.single measurement }
  match postJson primary with
  | none => ([call], none)
  | some postSuccess =>
    match outbound.PublishMissing flush with
    | (calls, none) => (call :: calls, none)
    | (calls, some outbound1) =>
      if !postSuccess then
        (call :: calls, some (outbound1.AddMissing measurement))
      else
        (call :: calls, some outbound1)

/-- The loop of `publishMeasurements` over the measurements received, each with the answers of
the network in its turn. -/
def publishMeasurements (outbound : OutboundMeasurements) :
    List (TemperatureMeasurement × PostResult × PostResult) →
      List PostCall × Option OutboundMeasurements
  | [] => ([], some outbound)
  | (measurement, primary, flush) :: rest =>
    match publishCycle outbound measurement primary flush with
    | (calls, none) => (calls, none)
    | (calls, some outbound1) =>
      let r := publishMeasurements outbound1 rest
      (calls ++ r.1, r.2)

/-- An operation on the retry buffer. -/
inductive BufferOp where
  | add (measurement : TemperatureMeasurement)
  | publish (result : PostResult)
  deriving DecidableEq

/-- The state after one operation, `none` after a panic. -/
def applyOp (outbound : OutboundMeasurements) : BufferOp → Option OutboundMeasurements
  | BufferOp.add measurement => some (outbound.AddMissing measurement)
  | BufferOp.publish result => (outbound.PublishMissing result).2

/-- The state after a sequence of operations, `none` after a panic. -/
def applyOps (outbound : OutboundMeasurements) : List BufferOp → Option OutboundMeasurements
  | [] => some outbound
  | op :: rest =>
    match applyOp outbound op with
    | none => none
    | some outbound1 => applyOps outbound1 rest

/-- The buffer after `AddMissing` of each measurement in turn. -/
def addAll (outbound : OutboundMeasurements) (measurements : List TemperatureMeasurement) :
    OutboundMeasurements :=
  measurements.foldl OutboundMeasurements.AddMissing outbound

/-- Some call with URL `first` is made before some call with URL `second`. -/
def postedBefore (first second : String) (calls : List PostCall) : Prop :=
  ∃ i j : Nat, i < j ∧ (calls.map PostCall.url)[i]? = some first ∧
    (calls.map PostCall.url)[j]? = some second

/-- A transport failure: a network error, or a response with a 5xx status. -/
def transportFailure : PostResult → Prop
  | PostResult.response statusCode => 500 ≤ statusCode ∧ statusCode ≤ 599
  | PostResult.error => True

/-- A measurement with the given bounds of its window, for examples. -/
def sampleMeasurement (start stop : Time) : TemperatureMeasurement :=
  { Time := { Start := start, End := stop }, Min := 1, Max := 3, Average := 2 }

/-- The arithmetic mean of a list of values (0 for the empty list). -/
def mean (xs : List ℚ) : ℚ :=
  xs.sum / (xs.length : ℚ)

/-- The temperatures of a list of readings. -/
def temperatures (readings : List TemperatureReading) : List ℚ :=
  readings.map TemperatureReading.Temperature

/-- The fold of `accumulateAverage` over the values, from average `avg` and count `n`, the count
being incremented as `readingCount` is. -/
def averageFrom (avg : ℚ) (n : Nat) : List ℚ → ℚ
  | [] => avg
  | x :: xs => averageFrom (accumulateAverage avg x n) ((n + 1) % uintModulus) xs

/-- The fold of `accumulateAverage` over the values in which every intermediate average is
rounded by `round2` before it is used for the next value. -/
def roundedAverageFrom (avg : ℚ) (n : Nat) : List ℚ → ℚ
  | [] => avg
  | x :: xs => roundedAverageFrom (round2 (accumulateAverage avg x n)) ((n + 1) % uintModulus) xs

/-- The value is in the range of the finite `float64` values. -/
def finiteFloat (x : ℚ) : Prop :=
  -MaxFloat64 ≤ x ∧ x ≤ MaxFloat64

/-! ## The retry buffer -/

theorem AddMissing_missing (outbound : OutboundMeasurements) (m : TemperatureMeasurement) :
    (outbound.AddMissing m).missing =
      if (outbound.missing ++ [m]).length > 10 then sliceExpr (outbound.missing ++ [m]) 1 11
      else outbound.missing ++ [m] := by
  by_cases h : (outbound.missing ++ [m]).length > 10
  · simp only [OutboundMeasurements.AddMissing, h, if_true]
  · simp only [OutboundMeasurements.AddMissing, h, if_false]

theorem AddMissing_missing_of_le (outbound : OutboundMeasurements) (m : TemperatureMeasurement)
    (h : outbound.missing.length ≤ 10) :
    (outbound.AddMissing m).missing =
      (outbound.missing ++ [m]).drop (outbound.missing.length + 1 - 10) := by
  rw [AddMissing_missing]
  by_cases hlen : outbound.missing.length = 10
  · have h11 : (outbound.missing ++ [m]).length = 11 := by simp [hlen]
    rw [if_pos (by omega), hlen]
    unfold sliceExpr
    rw [List.take_of_length_le (by omega)]
  · have hlt : (outbound.missing ++ [m]).length ≤ 10 := by
      simp only [List.length_append, List.length_singleton]; omega
    rw [if_neg (by omega)]
    have h0 : outbound.missing.length + 1 - 10 = 0 := by omega
    rw [h0, List.drop_zero]

theorem AddMissing_length_le (outbound : OutboundMeasurements) (m : TemperatureMeasurement)
    (h : outbound.missing.length ≤ 10) : (outbound.AddMissing m).missing.length ≤ 10 := by
  rw [AddMissing_missing_of_le outbound m h]
  simp only [List.length_drop, List.length_append, List.length_singleton]
  omega

theorem addAll_append (outbound : OutboundMeasurements) (ms : List TemperatureMeasurement)
    (m : TemperatureMeasurement) :
    addAll outbound (ms ++ [m]) = (addAll outbound ms).AddMissing m := by
  simp [addAll, List.foldl_append]

theorem addAll_empty_missing (ms : List TemperatureMeasurement) :
    (addAll { missing := [] } ms).missing = ms.drop (ms.length - 10) := by
  induction ms using List.reverseRecOn with
  | nil => rfl
  | append_singleton ms m ih =>
    have hlen : (addAll { missing := [] } ms).missing.length ≤ 10 := by
      rw [ih, List.length_drop]; omega
    rw [addAll_append, AddMissing_missing_of_le _ _ hlen, ih]
    simp only [List.length_drop, List.length_append, List.length_singleton]
    by_cases h10 : ms.length ≤ 10
    · have e1 : ms.length - 10 = 0 := by omega
      have e2 : ms.length - (ms.length - 10) + 1 - 10 = ms.length + 1 - 10 := by omega
      rw [e2, e1, List.drop_zero]
    · have e2 : ms.length - (ms.length - 10) + 1 - 10 = 1 := by omega
      have e3 : ms.length + 1 - 10 = ms.length - 10 + 1 := by omega
      have hpos : 1 ≤ (List.drop (ms.length - 10) ms).length := by
        rw [List.length_drop]; omega
      rw [e2, e3, List.drop_append_of_le_length hpos, List.drop_drop,
        List.drop_append_of_le_length (by omega)]

theorem PublishMissing_state_cases (outbound : OutboundMeasurements) (result : PostResult) :
    (outbound.PublishMissing result).2 = none ∨
      (outbound.PublishMissing result).2 = some outbound ∨
      (outbound.PublishMissing result).2 = some { missing := [] } := by
  unfold OutboundMeasurements.PublishMissing
  split
  · exact Or.inr (Or.inl rfl)
  · cases hp : postJson result with
    | none => exact Or.inl rfl
    | some b =>
      cases b
      · exact Or.inr (Or.inl rfl)
      · exact Or.inr (Or.inr rfl)

theorem PublishMissing_length_le (outbound : OutboundMeasurements) (result : PostResult)
    (h : outbound.missing.length ≤ 10) (outbound1 : OutboundMeasurements)
    (h1 : (outbound.PublishMissing result).2 = some outbound1) :
    outbound1.missing.length ≤ 10 := by
  rcases PublishMissing_state_cases outbound result with h2 | h2 | h2
  · rw [h2] at h1; cases h1
  · rw [h2] at h1; cases h1; exact h
  · rw [h2] at h1; cases h1; simp

theorem applyOps_length_le (ops : List BufferOp) :
    ∀ (outbound outbound1 : OutboundMeasurements), outbound.missing.length ≤ 10 →
      applyOps outbound ops = some outbound1 → outbound1.missing.length ≤ 10 := by
  induction ops with
  | nil =>
    intro outbound outbound1 h h1
    simp only [applyOps, Option.some.injEq] at h1
    rw [← h1]; exact h
  | cons op rest ih =>
    intro outbound outbound1 h h1
    unfold applyOps at h1
    cases hop : applyOp outbound op with
    | none => rw [hop] at h1; cases h1
    | some o2 =>
      rw [hop] at h1
      refine ih o2 outbound1 ?_ h1
      cases op with
      | add m =>
        simp only [applyOp, Option.some.injEq] at hop
        rw [← hop]; exact AddMissing_length_le outbound m h
      | publish result =>
        exact PublishMissing_length_le outbound result h o2 hop

theorem urls_ne : temperatureUrl ≠ missingUrl := by decide

theorem publishCycle_response (outbound : OutboundMeasurements) (m : TemperatureMeasurement)
    (sc : Int) (flush : PostResult) :
    publishCycle outbound m (PostResult.response sc) flush =
      ({ url := temperatureUrl, body := Payload.single m } :: (outbound.PublishMissing flush).1,
        (outbound.PublishMissing flush).2.map
          (fun o => if sc = 500 then o.AddMissing m else o)) := by
  unfold publishCycle
  simp only [postJson]
  rcases hp : outbound.PublishMissing flush with ⟨calls, _ | o1⟩
  · rfl
  · by_cases h500 : sc = 500 <;> simp [h500]

theorem PublishMissing_response (outbound : OutboundMeasurements) (sc : Int)
    (hne : outbound.missing ≠ []) :
    outbound.PublishMissing (PostResult.response sc) =
      ([{ url := missingUrl, body := Payload.batch outbound.missing }],
        some (if sc = 500 then outbound else { missing := [] })) := by
  have hlen : ¬ outbound.missing.length = 0 := by
    intro h0; exact hne (List.length_eq_zero.mp h0)
  unfold OutboundMeasurements.PublishMissing
  rw [if_neg hlen]
  by_cases h500 : sc = 500
  · subst h500
    rfl
  · have hb : (sc != 500) = true := bne_iff_ne.mpr h500
    simp only [postJson, hb, sliceExpr, if_neg h500, List.take_zero, List.drop_nil]

theorem PublishMissing_nil (outbound : OutboundMeasurements) (result : PostResult)
    (h : outbound.missing = []) : outbound.PublishMissing result = ([], some outbound) := by
  unfold OutboundMeasurements.PublishMissing
  rw [if_pos (by simp [h])]

/-! ## Rounding -/

theorem mathRound_mono {x y : ℚ} (h : x ≤ y) : mathRound x ≤ mathRound y := by
  unfold mathRound
  by_cases hx : 0 ≤ x
  · have hy : 0 ≤ y := le_trans hx h
    rw [if_pos hx, if_pos hy]
    exact_mod_cast Int.floor_le_floor (by linarith)
  · rw [if_neg hx]
    by_cases hy : 0 ≤ y
    · rw [if_pos hy]
      have h1 : ⌈x - 1 / 2⌉ ≤ 0 := Int.ceil_le.mpr (by push_cast; linarith)
      have h2 : 0 ≤ ⌊y + 1 / 2⌋ := Int.le_floor.mpr (by push_cast; linarith)
      exact_mod_cast le_trans h1 h2
    · rw [if_neg hy]
      exact_mod_cast Int.ceil_le_ceil (by linarith)

theorem mathRound_eq_of_near {x : ℚ} {k : ℤ} (h : |x - k| < 1 / 2) : mathRound x = k := by
  rw [abs_lt] at h
  unfold mathRound
  split
  · have hk : ⌊x + 1 / 2⌋ = k := Int.floor_eq_iff.mpr ⟨by linarith, by linarith⟩
    rw [hk]
  · have hk : ⌈x - 1 / 2⌉ = k := Int.ceil_eq_iff.mpr ⟨by linarith, by linarith⟩
    rw [hk]

theorem mathRound_exists (x : ℚ) : ∃ k : ℤ, mathRound x = k ∧ |x - k| ≤ 1 / 2 := by
  unfold mathRound
  split
  · refine ⟨⌊x + 1 / 2⌋, rfl, ?_⟩
    have h1 := Int.floor_le (x + 1 / 2)
    have h2 := Int.lt_floor_add_one (x + 1 / 2)
    rw [abs_le]; constructor <;> linarith
  · refine ⟨⌈x - 1 / 2⌉, rfl, ?_⟩
    have h1 := Int.le_ceil (x - 1 / 2)
    have h2 := Int.ceil_lt_add_one (x - 1 / 2)
    rw [abs_le]; constructor <;> linarith

theorem round2_mono {x y : ℚ} (h : x ≤ y) : round2 x ≤ round2 y := by
  unfold round2
  have hm := mathRound_mono (show x * 100 ≤ y * 100 by linarith)
  linarith

theorem round2_exists (x : ℚ) : ∃ k : ℤ, round2 x = k / 100 ∧ |x - k / 100| ≤ 1 / 200 := by
  obtain ⟨k, hk, hd⟩ := mathRound_exists (x * 100)
  refine ⟨k, by unfold round2; rw [hk], ?_⟩
  rw [abs_le] at hd ⊢
  constructor <;> linarith [hd.1, hd.2]

theorem round2_eq_of_near {x : ℚ} {k : ℤ} (h : |x - k / 100| < 1 / 200) :
    round2 x = k / 100 := by
  unfold round2
  rw [mathRound_eq_of_near (k := k)]
  rw [abs_lt] at h ⊢
  constructor <;> linarith [h.1, h.2]

theorem round2_round2 (x : ℚ) : round2 (round2 x) = round2 x := by
  obtain ⟨k, hk, _⟩ := round2_exists x
  rw [hk]
  exact round2_eq_of_near (by simp)

theorem round2_min (a b : ℚ) : round2 (min a b) = min (round2 a) (round2 b) :=
  Monotone.map_min (fun _ _ h => round2_mono h)

theorem round2_max (a b : ℚ) : round2 (max a b) = max (round2 a) (round2 b) :=
  Monotone.map_max (fun _ _ h => round2_mono h)

/-! ## The window aggregator -/

theorem uintModulus_pos : 1 < uintModulus := by
  unfold uintModulus; norm_num

theorem accumulate_readingCount (q : ReadingsProcessor) (r : TemperatureReading) :
    (q.accumulate r).readingCount = (q.readingCount + 1) % uintModulus := rfl

theorem accumulate_interval (q : ReadingsProcessor) (r : TemperatureReading) :
    (q.accumulate r).PublishingInterval = q.PublishingInterval := rfl

theorem accumulate_end (q : ReadingsProcessor) (r : TemperatureReading) :
    (q.accumulate r).measurement.Time.End = r.TimeStamp := rfl

theorem accumulate_start (q : ReadingsProcessor) (r : TemperatureReading) :
    (q.accumulate r).measurement.Time.Start =
      if q.readingCount = 0 then r.TimeStamp else q.measurement.Time.Start := rfl

theorem accumulate_min (q : ReadingsProcessor) (r : TemperatureReading) :
    (q.accumulate r).measurement.Min = round2 (min q.measurement.Min r.Temperature) := rfl

theorem accumulate_max (q : ReadingsProcessor) (r : TemperatureReading) :
    (q.accumulate r).measurement.Max = round2 (max q.measurement.Max r.Temperature) := rfl

theorem accumulate_average (q : ReadingsProcessor) (r : TemperatureReading) :
    (q.accumulate r).measurement.Average =
      round2 (accumulateAverage q.measurement.Average r.Temperature q.readingCount) := rfl

theorem accumulateAll_cons (q : ReadingsProcessor) (r : TemperatureReading)
    (rs : List TemperatureReading) :
    accumulateAll q (r :: rs) = accumulateAll (q.accumulate r) rs := rfl

theorem accumulateAll_append (q : ReadingsProcessor) (rs : List TemperatureReading)
    (r : TemperatureReading) :
    accumulateAll q (rs ++ [r]) = (accumulateAll q rs).accumulate r := by
  simp [accumulateAll, List.foldl_append]

theorem accumulateAll_interval (rs : List TemperatureReading) :
    ∀ q : ReadingsProcessor, (accumulateAll q rs).PublishingInterval = q.PublishingInterval := by
  induction rs with
  | nil => intro q; rfl
  | cons r rs ih => intro q; rw [accumulateAll_cons, ih, accumulate_interval]

/-- A property kept by `accumulate` while the count is positive and does not wrap is kept by
`accumulateAll`, and the count grows by the number of readings. -/
theorem accumulateAll_invariant (P : ReadingsProcessor → Prop) (rs : List TemperatureReading)
    (step : ∀ (q : ReadingsProcessor) (r : TemperatureReading), r ∈ rs → P q →
      1 ≤ q.readingCount → q.readingCount + 1 < uintModulus → P (q.accumulate r)) :
    ∀ q : ReadingsProcessor, P q → 1 ≤ q.readingCount →
      q.readingCount + rs.length < uintModulus →
      P (accumulateAll q rs) ∧ (accumulateAll q rs).readingCount = q.readingCount + rs.length := by
  induction rs with
  | nil => intro q hq _ _; exact ⟨hq, rfl⟩
  | cons r rs ih =>
    intro q hq hc hlen
    simp only [List.length_cons] at hlen
    have hc1 : (q.accumulate r).readingCount = q.readingCount + 1 := by
      rw [accumulate_readingCount, Nat.mod_eq_of_lt (by omega)]
    have hstep := step q r (List.mem_cons_self r rs) hq hc (by omega)
    have h := ih (fun q1 r1 hr1 => step q1 r1 (List.mem_cons_of_mem r hr1))
      (q.accumulate r) hstep (by omega) (by omega)
    rw [accumulateAll_cons]
    refine ⟨h.1, ?_⟩
    rw [h.2, hc1, List.length_cons]; omega

theorem accumulateAverage_first (x : ℚ) : accumulateAverage 0 x 0 = x := by
  unfold accumulateAverage
  have h1 : (0 + 1) % uintModulus = 1 := Nat.mod_eq_of_lt uintModulus_pos
  rw [h1]; simp

theorem accumulateAverage_eq (avg x : ℚ) (n : Nat) (hn : n + 1 < uintModulus) :
    accumulateAverage avg x n = avg + (x - avg) / ((n : ℚ) + 1) := by
  unfold accumulateAverage
  rw [Nat.mod_eq_of_lt hn]; push_cast; rfl

/-- The updated average lies between the old average and the new value. -/
theorem accumulateAverage_between (avg x : ℚ) (n : Nat) (hn : n + 1 < uintModulus) :
    min avg x ≤ accumulateAverage avg x n ∧ accumulateAverage avg x n ≤ max avg x := by
  rw [accumulateAverage_eq avg x n hn]
  have hd : (0 : ℚ) < (n : ℚ) + 1 := by positivity
  have hd1 : (1 : ℚ) ≤ (n : ℚ) + 1 := by
    have : (0 : ℚ) ≤ (n : ℚ) := Nat.cast_nonneg n
    linarith
  rcases le_total avg x with h | h
  · have e0 : 0 ≤ (x - avg) / ((n : ℚ) + 1) := div_nonneg (by linarith) hd.le
    have e1 : (x - avg) / ((n : ℚ) + 1) ≤ x - avg := div_le_self (by linarith) hd1
    rw [min_eq_left h, max_eq_right h]
    constructor <;> linarith
  · have e0 : (x - avg) / ((n : ℚ) + 1) ≤ 0 := div_nonpos_of_nonpos_of_nonneg (by linarith) hd.le
    have e1 : -((x - avg) / ((n : ℚ) + 1)) ≤ -(x - avg) := by
      rw [← neg_div]
      exact div_le_self (by linarith) hd1
    rw [min_eq_right h, max_eq_left h]
    constructor <;> linarith

/-- The first reading of a freshly reset window. -/
theorem accumulate_reset (p : ReadingsProcessor) (now1 now2 : Time) (r : TemperatureReading) :
    ((p.reset now1 now2).accumulate r).readingCount = 1 ∧
    ((p.reset now1 now2).accumulate r).measurement.Time.Start = r.TimeStamp ∧
    ((p.reset now1 now2).accumulate r).measurement.Average = round2 r.Temperature ∧
    ((p.reset now1 now2).accumulate r).measurement.Min =
      round2 (min MaxFloat64 r.Temperature) ∧
    ((p.reset now1 now2).accumulate r).measurement.Max =
      round2 (max (-MaxFloat64) r.Temperature) := by
  refine ⟨?_, rfl, ?_, rfl, rfl⟩
  · rw [accumulate_readingCount]
    exact Nat.mod_eq_of_lt uintModulus_pos
  · rw [accumulate_average]
    show round2 (accumulateAverage 0 r.Temperature 0) = _
    rw [accumulateAverage_first]

/-- After at least one reading of a freshly reset window within the range of the count,
`Min <= Average <= Max`. -/
theorem window_ordered (p : ReadingsProcessor) (now1 now2 : Time) (r : TemperatureReading)
    (rest : List TemperatureReading) (hlen : (r :: rest).length < uintModulus) :
    (accumulateAll (p.reset now1 now2) (r :: rest)).measurement.Min ≤
        (accumulateAll (p.reset now1 now2) (r :: rest)).measurement.Average ∧
      (accumulateAll (p.reset now1 now2) (r :: rest)).measurement.Average ≤
        (accumulateAll (p.reset now1 now2) (r :: rest)).measurement.Max := by
  obtain ⟨hc, _, ha, hmin, hmax⟩ := accumulate_reset p now1 now2 r
  simp only [List.length_cons] at hlen
  rw [accumulateAll_cons]
  refine (accumulateAll_invariant
    (fun q => q.measurement.Min ≤ q.measurement.Average ∧
      q.measurement.Average ≤ q.measurement.Max) rest ?_ _ ?_ (by omega) (by omega)).1
  · intro q r1 _ hq _ hq2
    obtain ⟨hb1, hb2⟩ :=
      accumulateAverage_between q.measurement.Average r1.Temperature q.readingCount hq2
    beta_reduce at hq ⊢
    rw [accumulate_min, accumulate_max, accumulate_average]
    constructor
    · exact round2_mono (le_trans (min_le_min hq.1 le_rfl) hb1)
    · exact round2_mono (le_trans hb2 (max_le_max hq.2 le_rfl))
  · beta_reduce
    rw [ha, hmin, hmax]
    exact ⟨round2_mono (min_le_right _ _), round2_mono (le_max_right _ _)⟩

theorem mean_append_singleton (xs : List ℚ) (x : ℚ) (hlen : xs.length + 1 < uintModulus) :
    accumulateAverage (mean xs) x xs.length = mean (xs ++ [x]) := by
  rw [accumulateAverage_eq _ _ _ hlen]
  unfold mean
  rw [List.sum_append, List.length_append]
  simp only [List.sum_cons, List.sum_nil, List.length_singleton, add_zero]
  push_cast
  rcases Nat.eq_zero_or_pos xs.length with h0 | hpos
  · have hnil : xs = [] := List.length_eq_zero.mp h0
    subst hnil
    simp
  · have hne : (xs.length : ℚ) ≠ 0 := by
      have : (0 : ℚ) < (xs.length : ℚ) := by exact_mod_cast hpos
      exact ne_of_gt this
    have hne1 : (xs.length : ℚ) + 1 ≠ 0 := by positivity
    field_simp
    ring

theorem averageFrom_mean (xs : List ℚ) :
    ∀ pre : List ℚ, pre.length + xs.length < uintModulus →
      averageFrom (mean pre) pre.length xs = mean (pre ++ xs) := by
  induction xs with
  | nil => intro pre _; simp [averageFrom]
  | cons x xs ih =>
    intro pre hlen
    simp only [List.length_cons] at hlen
    have h1 : (pre.length + 1) % uintModulus = (pre ++ [x]).length := by
      rw [Nat.mod_eq_of_lt (by omega)]; simp
    unfold averageFrom
    rw [mean_append_singleton pre x (by omega), h1, ih (pre ++ [x]) (by simp; omega)]
    simp

theorem accumulateAll_end (rs : List TemperatureReading) (hne : rs ≠ []) :
    ∀ q : ReadingsProcessor,
      (accumulateAll q rs).measurement.Time.End = (rs.getLast hne).TimeStamp := by
  induction rs with
  | nil => exact absurd rfl hne
  | cons r rs ih =>
    intro q
    by_cases hrs : rs = []
    · subst hrs; rfl
    · rw [accumulateAll_cons, ih hrs, List.getLast_cons hrs]

theorem accumulateAll_start (p : ReadingsProcessor) (now1 now2 : Time) (r : TemperatureReading)
    (rest : List TemperatureReading) (hlen : (r :: rest).length < uintModulus) :
    (accumulateAll (p.reset now1 now2) (r :: rest)).measurement.Time.Start = r.TimeStamp := by
  obtain ⟨hc, hs, _⟩ := accumulate_reset p now1 now2 r
  simp only [List.length_cons] at hlen
  rw [accumulateAll_cons]
  refine (accumulateAll_invariant (fun q => q.measurement.Time.Start = r.TimeStamp) rest
    ?_ _ hs (by omega) (by omega)).1
  intro q r1 _ hq hq1 _
  rw [accumulate_start, if_neg (by omega)]
  exact hq

theorem Sub_ge_iff (interval : Duration) (t u : Time) (hmin : minDuration < interval)
    (hmax : interval ≤ maxDuration) : interval ≤ Time.Sub t u ↔ interval ≤ t - u := by
  have e1 : minDuration = -9223372036854775808 := by norm_num [minDuration]
  have e2 : maxDuration = 9223372036854775807 := by norm_num [maxDuration]
  rw [e1] at hmin
  rw [e2] at hmax
  unfold Time.Sub
  rw [e1, e2]
  split_ifs with h1 h2
  · constructor <;> intro h <;> linarith
  · constructor <;> intro h <;> linarith
  · rfl

theorem shouldPublish_iff (q : ReadingsProcessor) :
    q.shouldPublish = true ↔
      q.PublishingInterval ≤ Time.Sub q.measurement.Time.End q.measurement.Time.Start := by
  unfold ReadingsProcessor.shouldPublish
  simp

theorem runStep_interval (q : ReadingsProcessor) (r : TemperatureReading) (now1 now2 : Time) :
    (q.runStep r now1 now2).1.PublishingInterval = q.PublishingInterval := by
  by_cases hp : (q.accumulate r).shouldPublish = true
  · simp only [ReadingsProcessor.runStep, hp, if_true]
    rfl
  · simp only [ReadingsProcessor.runStep, hp]
    rfl

theorem runStep_emitted (q : ReadingsProcessor) (r : TemperatureReading) (now1 now2 : Time)
    (m : TemperatureMeasurement) (hm : m ∈ (q.runStep r now1 now2).2.toList) :
    q.PublishingInterval ≤ Time.Sub m.Time.End m.Time.Start := by
  unfold ReadingsProcessor.runStep at hm
  by_cases hp : (q.accumulate r).shouldPublish = true
  · simp only [hp, if_true, Option.toList_some, List.mem_singleton] at hm
    rw [hm, ← accumulate_interval q r]
    exact (shouldPublish_iff _).mp hp
  · simp [hp] at hm

theorem runLoop_emitted (received : List (TemperatureReading × Time × Time)) :
    ∀ (q : ReadingsProcessor) (m : TemperatureMeasurement), m ∈ (q.runLoop received).2 →
      q.PublishingInterval ≤ Time.Sub m.Time.End m.Time.Start := by
  induction received with
  | nil => intro q m hm; simp [ReadingsProcessor.runLoop] at hm
  | cons e rest ih =>
    intro q m hm
    obtain ⟨r, now1, now2⟩ := e
    simp only [ReadingsProcessor.runLoop, List.mem_append] at hm
    rcases hm with hm | hm
    · exact runStep_emitted q r now1 now2 m hm
    · rw [← runStep_interval q r now1 now2]
      exact ih _ m hm

theorem finiteFloat_of_abs_le (x : ℚ) (h : |x| ≤ 50) : finiteFloat x := by
  have hbig : (50 : ℚ) ≤ MaxFloat64 := by
    unfold MaxFloat64
    have h1 : (1 : ℚ) ≤ 2 ^ 971 := one_le_pow₀ (by norm_num)
    have h2 : (50 : ℚ) ≤ 2 ^ 53 - 1 := by norm_num
    nlinarith
  rw [abs_le] at h
  exact ⟨by linarith [h.1], by linarith [h.2]⟩

theorem rawTempToFloat_eq (v : Nat) :
    rawTempToFloat v = ((v : ℚ) / 4095) * (50 - (-50)) + (-50) := rfl

theorem rawTempToFloat_finite (v : Nat) (hv : v ≤ 4095) : finiteFloat (rawTempToFloat v) := by
  apply finiteFloat_of_abs_le
  rw [rawTempToFloat_eq, abs_le]
  have h0 : (0 : ℚ) ≤ (v : ℚ) := Nat.cast_nonneg v
  have h1 : (v : ℚ) ≤ 4095 := by exact_mod_cast hv
  constructor
  · have : 0 ≤ (v : ℚ) / 4095 := div_nonneg h0 (by norm_num)
    linarith
  · have : (v : ℚ) / 4095 ≤ 1 := by
      rw [div_le_one (by norm_num)]; exact h1
    linarith

/-- A rounded value absorbs a step of the average towards the value it was rounded from. -/
theorem round2_accumulateAverage_same (t : ℚ) (n : Nat) (hn1 : 1 ≤ n)
    (hn : n + 1 < uintModulus) : round2 (accumulateAverage (round2 t) t n) = round2 t := by
  obtain ⟨k, hk, hd⟩ := round2_exists t
  rw [accumulateAverage_eq _ _ _ hn, hk]
  apply round2_eq_of_near
  have hd2 : (2 : ℚ) ≤ (n : ℚ) + 1 := by
    have : (1 : ℚ) ≤ (n : ℚ) := by exact_mod_cast hn1
    linarith
  have hpos : (0 : ℚ) < (n : ℚ) + 1 := by linarith
  have e : (k : ℚ) / 100 + (t - (k : ℚ) / 100) / ((n : ℚ) + 1) - (k : ℚ) / 100 =
      (t - (k : ℚ) / 100) / ((n : ℚ) + 1) := by ring
  rw [e, abs_div, abs_of_pos hpos, div_lt_iff₀ hpos]
  calc |t - (k : ℚ) / 100| ≤ 1 / 200 := hd
    _ < 1 / 200 * ((n : ℚ) + 1) := by linarith

/-- A window of readings that all have the temperature `t`. -/
theorem constant_window (t : ℚ) (ht : finiteFloat t) (p : ReadingsProcessor) (now1 now2 : Time)
    (r : TemperatureReading) (rest : List TemperatureReading)
    (hall : ∀ r1 ∈ r :: rest, r1.Temperature = t) (hlen : (r :: rest).length < uintModulus) :
    (accumulateAll (p.reset now1 now2) (r :: rest)).measurement.Min = round2 t ∧
    (accumulateAll (p.reset now1 now2) (r :: rest)).measurement.Max = round2 t ∧
    (accumulateAll (p.reset now1 now2) (r :: rest)).measurement.Average = round2 t := by
  obtain ⟨hc, _, ha, hmin, hmax⟩ := accumulate_reset p now1 now2 r
  have hr : r.Temperature = t := hall r (List.mem_cons_self r rest)
  simp only [List.length_cons] at hlen
  rw [accumulateAll_cons]
  refine (accumulateAll_invariant
    (fun q => q.measurement.Min = round2 t ∧ q.measurement.Max = round2 t ∧
      q.measurement.Average = round2 t) rest ?_ _ ?_ (by omega) (by omega)).1
  · intro q r1 hr1 hq hq1 hq2
    have ht1 : r1.Temperature = t := hall r1 (List.mem_cons_of_mem r hr1)
    beta_reduce at hq ⊢
    rw [accumulate_min, accumulate_max, accumulate_average, hq.1, hq.2.1, hq.2.2, ht1,
      round2_min, round2_max, round2_round2, min_self, max_self]
    exact ⟨rfl, rfl, round2_accumulateAverage_same t q.readingCount hq1 hq2⟩
  · beta_reduce
    rw [ha, hmin, hmax, hr, min_eq_right ht.2, max_eq_right ht.1]
    exact ⟨rfl, rfl, rfl⟩

theorem accumulateAll_average (rs : List TemperatureReading) :
    ∀ q : ReadingsProcessor, (accumulateAll q rs).measurement.Average =
      roundedAverageFrom q.measurement.Average q.readingCount (temperatures rs) := by
  induction rs with
  | nil => intro q; rfl
  | cons r rs ih =>
    intro q
    rw [accumulateAll_cons, ih, accumulate_average, accumulate_readingCount]
    rfl

/-- The `Min` of a window is `round2` of the least temperature accumulated. -/
theorem window_min (p : ReadingsProcessor) (now1 now2 : Time) (rs : List TemperatureReading) :
    rs ≠ [] → (∀ r ∈ rs, finiteFloat r.Temperature) →
      ∃ r ∈ rs, (∀ r1 ∈ rs, r.Temperature ≤ r1.Temperature) ∧
        (accumulateAll (p.reset now1 now2) rs).measurement.Min = round2 r.Temperature := by
  induction rs using List.reverseRecOn with
  | nil => intro h; exact absurd rfl h
  | append_singleton pre x ih =>
    intro _ hfin
    rw [accumulateAll_append, accumulate_min]
    by_cases hpre : pre = []
    · subst hpre
      refine ⟨x, by simp, by simp, ?_⟩
      have hx : x.Temperature ≤ MaxFloat64 := (hfin x (by simp)).2
      show round2 (min MaxFloat64 x.Temperature) = _
      rw [min_eq_right hx]
    · obtain ⟨r, hr, hleast, hmin⟩ :=
        ih hpre (fun r hr => hfin r (List.mem_append_left _ hr))
      rw [hmin, round2_min, round2_round2, ← round2_min]
      rcases le_total r.Temperature x.Temperature with h | h
      · refine ⟨r, List.mem_append_left _ hr, ?_, by rw [min_eq_left h]⟩
        intro r1 hr1
        rcases List.mem_append.mp hr1 with h1 | h1
        · exact hleast r1 h1
        · rw [List.mem_singleton.mp h1]; exact h
      · refine ⟨x, by simp, ?_, by rw [min_eq_right h]⟩
        intro r1 hr1
        rcases List.mem_append.mp hr1 with h1 | h1
        · exact le_trans h (hleast r1 h1)
        · rw [List.mem_singleton.mp h1]

/-- The `Max` of a window is `round2` of the greatest temperature accumulated. -/
theorem window_max (p : ReadingsProcessor) (now1 now2 : Time) (rs : List TemperatureReading) :
    rs ≠ [] → (∀ r ∈ rs, finiteFloat r.Temperature) →
      ∃ r ∈ rs, (∀ r1 ∈ rs, r1.Temperature ≤ r.Temperature) ∧
        (accumulateAll (p.reset now1 now2) rs).measurement.Max = round2 r.Temperature := by
  induction rs using List.reverseRecOn with
  | nil => intro h; exact absurd rfl h
  | append_singleton pre x ih =>
    intro _ hfin
    rw [accumulateAll_append, accumulate_max]
    by_cases hpre : pre = []
    · subst hpre
      refine ⟨x, by simp, by simp, ?_⟩
      have hx : -MaxFloat64 ≤ x.Temperature := (hfin x (by simp)).1
      show round2 (max (-MaxFloat64) x.Temperature) = _
      rw [max_eq_right hx]
    · obtain ⟨r, hr, hgreatest, hmax⟩ :=
        ih hpre (fun r hr => hfin r (List.mem_append_left _ hr))
      rw [hmax, round2_max, round2_round2, ← round2_max]
      rcases le_total x.Temperature r.Temperature with h | h
      · refine ⟨r, List.mem_append_left _ hr, ?_, by rw [max_eq_left h]⟩
        intro r1 hr1
        rcases List.mem_append.mp hr1 with h1 | h1
        · exact hgreatest r1 h1
        · rw [List.mem_singleton.mp h1]; exact h
      · refine ⟨x, by simp, ?_, by rw [max_eq_right h]⟩
        intro r1 hr1
        rcases List.mem_append.mp hr1 with h1 | h1
        · exact le_trans (hgreatest r1 h1) h
        · rw [List.mem_singleton.mp h1]

/-! ## The claims about the publisher -/

/-- C1: starting from the empty retry buffer, after `AddMissing` of the measurements `ms` one at
a time the buffer is exactly the last `min (length ms) 10` of them in arrival order; after eleven
calls it holds the second to the eleventh measurement. -/
theorem C1_AddMissing_keeps_last_ten :
    (∀ ms : List TemperatureMeasurement,
      (addAll { missing := [] } ms).missing = ms.drop (ms.length - min ms.length 10) ∧
      (addAll { missing := [] } ms).missing.length = min ms.length 10) ∧
    (∀ m1 m2 m3 m4 m5 m6 m7 m8 m9 m10 m11 : TemperatureMeasurement,
      (addAll { missing := [] } [m1, m2, m3, m4, m5, m6, m7, m8, m9, m10, m11]).missing =
        [m2, m3, m4, m5, m6, m7, m8, m9, m10, m11]) := by
  constructor
  · intro ms
    have e : ms.length - min ms.length 10 = ms.length - 10 := by omega
    rw [e, addAll_empty_missing, List.length_drop]
    exact ⟨rfl, by omega⟩
  · intro m1 m2 m3 m4 m5 m6 m7 m8 m9 m10 m11
    rw [addAll_empty_missing]
    rfl

/-- C2: a retry buffer of length at most 10 has length at most 10 after `AddMissing` of any
measurement and after `PublishMissing` with any answer of the network (which returns whenever the
network gives a response), hence after any sequence of the two operations; in particular every
state reached from the empty buffer has length at most 10. -/
theorem C2_missing_length_le_ten (outbound : OutboundMeasurements)
    (h : outbound.missing.length ≤ 10) :
    (∀ m, (outbound.AddMissing m).missing.length ≤ 10) ∧
    (∀ result outbound1, (outbound.PublishMissing result).2 = some outbound1 →
      outbound1.missing.length ≤ 10) ∧
    (∀ sc, ∃ outbound1, (outbound.PublishMissing (PostResult.response sc)).2 = some outbound1 ∧
      outbound1.missing.length ≤ 10) ∧
    (∀ ops outbound1, applyOps outbound ops = some outbound1 →
      outbound1.missing.length ≤ 10) ∧
    (∀ ops outbound1, applyOps { missing := [] } ops = some outbound1 →
      outbound1.missing.length ≤ 10) := by
  refine ⟨fun m => AddMissing_length_le outbound m h,
    fun result outbound1 h1 => PublishMissing_length_le outbound result h outbound1 h1,
    ?_, fun ops outbound1 h1 => applyOps_length_le ops outbound outbound1 h h1,
    fun ops outbound1 h1 => applyOps_length_le ops _ outbound1 (by simp) h1⟩
  intro sc
  by_cases hne : outbound.missing = []
  · exact ⟨outbound, by rw [PublishMissing_nil outbound _ hne], h⟩
  · rw [PublishMissing_response outbound sc hne]
    refine ⟨_, rfl, ?_⟩
    by_cases h500 : sc = 500 <;> simp [h500, h]

theorem C2_missing_length_le_ten_witness :
    ([] : List TemperatureMeasurement).length ≤ 10 ∧
    ∀ ops outbound1, applyOps { missing := [] } ops = some outbound1 →
      outbound1.missing.length ≤ 10 :=
  ⟨by decide, (C2_missing_length_le_ten { missing := [] } (by decide)).2.2.2.1⟩

/-- C3: the code breaks the failure half of the claim.  With the retry buffer holding two
measurements and `http.Post` failing with a network error (nil response), `PublishMissing` makes
the batch post and then panics in `postJson`: there is no buffer afterwards, where the claim has
the buffer unchanged.  The same holds for every non-empty buffer. -/
theorem C3_PublishMissing_network_error_panics :
    OutboundMeasurements.PublishMissing
        { missing := [sampleMeasurement 0 5, sampleMeasurement 6 9] } PostResult.error =
      ([{ url := missingUrl,
          body := Payload.batch [sampleMeasurement 0 5, sampleMeasurement 6 9] }], none) ∧
    (OutboundMeasurements.PublishMissing
        { missing := [sampleMeasurement 0 5, sampleMeasurement 6 9] } PostResult.error).2 ≠
      some { missing := [sampleMeasurement 0 5, sampleMeasurement 6 9] } ∧
    (∀ (m : TemperatureMeasurement) (ms : List TemperatureMeasurement),
      OutboundMeasurements.PublishMissing { missing := m :: ms } PostResult.error =
        ([{ url := missingUrl, body := Payload.batch (m :: ms) }], none)) := by
  have hall : ∀ (m : TemperatureMeasurement) (ms : List TemperatureMeasurement),
      OutboundMeasurements.PublishMissing { missing := m :: ms } PostResult.error =
        ([{ url := missingUrl, body := Payload.batch (m :: ms) }], none) := by
    intro m ms
    unfold OutboundMeasurements.PublishMissing
    rw [if_neg (by simp)]
    rfl
  refine ⟨hall _ _, ?_, hall⟩
  rw [hall]
  exact fun h => Option.noConfusion h

/-- C4, as stated, fails: in a cycle with the retry buffer holding one measurement and both posts
answered with status 200, the post to `/api/temperature` is the first call and the post to
`/api/temperature/missing` the second, so no post to the missing endpoint comes before a post to
the primary endpoint. -/
theorem C4_flush_first_counterexample :
    (publishCycle { missing := [sampleMeasurement 0 5] } (sampleMeasurement 6 9)
        (PostResult.response 200) (PostResult.response 200)).1 =
      [{ url := temperatureUrl, body := Payload.single (sampleMeasurement 6 9) },
       { url := missingUrl, body := Payload.batch [sampleMeasurement 0 5] }] ∧
    ¬ postedBefore missingUrl temperatureUrl
      (publishCycle { missing := [sampleMeasurement 0 5] } (sampleMeasurement 6 9)
        (PostResult.response 200) (PostResult.response 200)).1 := by
  have hcalls : (publishCycle { missing := [sampleMeasurement 0 5] } (sampleMeasurement 6 9)
        (PostResult.response 200) (PostResult.response 200)).1 =
      [{ url := temperatureUrl, body := Payload.single (sampleMeasurement 6 9) },
       { url := missingUrl, body := Payload.batch [sampleMeasurement 0 5] }] := by
    rw [publishCycle_response, PublishMissing_response _ _ (by simp)]
  refine ⟨hcalls, ?_⟩
  rw [hcalls]
  rintro ⟨i, j, hij, hi, hj⟩
  have hne := urls_ne
  match i, j with
  | 0, _ => simp at hi; exact hne hi
  | 1, 0 => omega
  | 1, 1 => omega
  | 1, (j + 2) => simp at hj
  | (i + 2), _ => simp at hi

/-- C4, amended: in a publish cycle with a non-empty retry buffer in which the primary post gets
a response, exactly two posts are made: first the current measurement to `/api/temperature`,
then the retry buffer as it stood before the cycle to `/api/temperature/missing`. -/
theorem C4_primary_post_then_flush (outbound : OutboundMeasurements)
    (m : TemperatureMeasurement) (sc : Int) (flush : PostResult)
    (hne : outbound.missing ≠ []) :
    (publishCycle outbound m (PostResult.response sc) flush).1 =
      [{ url := temperatureUrl, body := Payload.single m },
       { url := missingUrl, body := Payload.batch outbound.missing }] ∧
    postedBefore temperatureUrl missingUrl
      (publishCycle outbound m (PostResult.response sc) flush).1 := by
  have hlen : ¬ outbound.missing.length = 0 := by
    intro h0; exact hne (List.length_eq_zero.mp h0)
  have hcalls : (publishCycle outbound m (PostResult.response sc) flush).1 =
      [{ url := temperatureUrl, body := Payload.single m },
       { url := missingUrl, body := Payload.batch outbound.missing }] := by
    rw [publishCycle_response]
    unfold OutboundMeasurements.PublishMissing
    rw [if_neg hlen]
    rcases postJson flush with _ | _ | _ <;> rfl
  refine ⟨hcalls, ?_⟩
  rw [hcalls]
  exact ⟨0, 1, by omega, rfl, rfl⟩

theorem C4_primary_post_then_flush_witness :
    (publishCycle { missing := [sampleMeasurement 0 5] } (sampleMeasurement 6 9)
        (PostResult.response 500) PostResult.error).1 =
      [{ url := temperatureUrl, body := Payload.single (sampleMeasurement 6 9) },
       { url := missingUrl, body := Payload.batch [sampleMeasurement 0 5] }] :=
  (C4_primary_post_then_flush { missing := [sampleMeasurement 0 5] } (sampleMeasurement 6 9)
    500 PostResult.error (by simp)).1

/-- C5, as stated, fails twice: status 503 is a transport failure, yet the cycle leaves the
measurement out of the retry buffer; a network error is a transport failure, yet the cycle does
not complete (the program panics). -/
theorem C5_transport_failure_counterexample :
    (transportFailure (PostResult.response 503) ∧
      (publishCycle { missing := [] } (sampleMeasurement 6 9)
        (PostResult.response 503) (PostResult.response 200)).2 = some { missing := [] }) ∧
    (transportFailure PostResult.error ∧
      (publishCycle { missing := [] } (sampleMeasurement 6 9)
        PostResult.error (PostResult.response 200)).2 = none) := by
  refine ⟨⟨by simp [transportFailure], ?_⟩, ⟨by simp [transportFailure], ?_⟩⟩
  · rw [publishCycle_response, PublishMissing_nil _ _ rfl]
    simp
  · simp [publishCycle, postJson]

/-- C5, amended: when the primary post is answered with status 500 and the post of the retry
buffer, if made, gets a response, the cycle completes and the measurement is appended to the
retry buffer left by `PublishMissing`, as its newest entry (the buffer holding at most 10
measurements, as every reachable buffer does); the loop goes on with the next
measurement from that state.  With any other status, 5xx included, the primary post counts as a
success and the measurement is not enqueued. -/
theorem C5_status_500_is_enqueued (outbound : OutboundMeasurements)
    (m : TemperatureMeasurement) (sc : Int) (h : outbound.missing.length ≤ 10) :
    ∃ outbound1, (outbound.PublishMissing (PostResult.response sc)).2 = some outbound1 ∧
      (publishCycle outbound m (PostResult.response 500) (PostResult.response sc)).2 =
        some (outbound1.AddMissing m) ∧
      (outbound1.AddMissing m).missing.getLast? = some m ∧
      (∀ rest, (publishMeasurements outbound
          ((m, PostResult.response 500, PostResult.response sc) :: rest)).2 =
        (publishMeasurements (outbound1.AddMissing m) rest).2) ∧
      (∀ sc1, sc1 ≠ 500 →
        (publishCycle outbound m (PostResult.response sc1) (PostResult.response sc)).2 =
          some outbound1) := by
  have hex : ∃ outbound1,
      (outbound.PublishMissing (PostResult.response sc)).2 = some outbound1 := by
    by_cases hne : outbound.missing = []
    · exact ⟨outbound, by rw [PublishMissing_nil outbound _ hne]⟩
    · rw [PublishMissing_response outbound sc hne]
      exact ⟨_, rfl⟩
  obtain ⟨o1, ho1⟩ := hex
  have hcycle : (publishCycle outbound m (PostResult.response 500)
      (PostResult.response sc)).2 = some (o1.AddMissing m) := by
    rw [publishCycle_response, ho1]; simp
  refine ⟨o1, ho1, hcycle, ?_, ?_, ?_⟩
  · have h1 : o1.missing.length ≤ 10 := PublishMissing_length_le outbound _ h o1 ho1
    rw [AddMissing_missing_of_le o1 m h1, List.drop_append_of_le_length (by omega)]
    simp
  · intro rest
    rcases hc : publishCycle outbound m (PostResult.response 500)
      (PostResult.response sc) with ⟨calls, st⟩
    rw [hc] at hcycle
    simp only at hcycle
    subst hcycle
    simp [publishMeasurements, hc]
  · intro sc1 hsc1
    rw [publishCycle_response, ho1]; simp [hsc1]

theorem C5_status_500_is_enqueued_witness :
    ([sampleMeasurement 0 5] : List TemperatureMeasurement).length ≤ 10 ∧
    ∃ outbound1, (OutboundMeasurements.PublishMissing { missing := [sampleMeasurement 0 5] }
        (PostResult.response 500)).2 = some outbound1 ∧
      (publishCycle { missing := [sampleMeasurement 0 5] } (sampleMeasurement 6 9)
        (PostResult.response 500) (PostResult.response 500)).2 =
        some (outbound1.AddMissing (sampleMeasurement 6 9)) ∧
      (outbound1.AddMissing (sampleMeasurement 6 9)).missing.getLast? =
        some (sampleMeasurement 6 9) ∧
      (∀ rest, (publishMeasurements { missing := [sampleMeasurement 0 5] }
          ((sampleMeasurement 6 9, PostResult.response 500, PostResult.response 500) :: rest)).2 =
        (publishMeasurements (outbound1.AddMissing (sampleMeasurement 6 9)) rest).2) ∧
      (∀ sc1, sc1 ≠ 500 →
        (publishCycle { missing := [sampleMeasurement 0 5] } (sampleMeasurement 6 9)
          (PostResult.response sc1) (PostResult.response 500)).2 = some outbound1) :=
  ⟨by decide, C5_status_500_is_enqueued { missing := [sampleMeasurement 0 5] }
    (sampleMeasurement 6 9) 500 (by decide)⟩

/-! ## The claims about the window aggregator -/

/-- C7: for every non-empty sequence of readings (fewer than `2 ^ 64`, the range of the count)
accumulated into a freshly reset window, the measurement satisfies `Min <= Average <= Max`, and
so does the measurement after each single reading, that is, after every non-empty initial
part of the sequence. -/
theorem C7_min_le_average_le_max (p : ReadingsProcessor) (now1 now2 : Time)
    (rs : List TemperatureReading) (hne : rs ≠ []) (hlen : rs.length < uintModulus) :
    ((accumulateAll (p.reset now1 now2) rs).measurement.Min ≤
        (accumulateAll (p.reset now1 now2) rs).measurement.Average ∧
      (accumulateAll (p.reset now1 now2) rs).measurement.Average ≤
        (accumulateAll (p.reset now1 now2) rs).measurement.Max) ∧
    (∀ k, 0 < k → k ≤ rs.length →
      (accumulateAll (p.reset now1 now2) (rs.take k)).measurement.Min ≤
        (accumulateAll (p.reset now1 now2) (rs.take k)).measurement.Average ∧
      (accumulateAll (p.reset now1 now2) (rs.take k)).measurement.Average ≤
        (accumulateAll (p.reset now1 now2) (rs.take k)).measurement.Max) := by
  have key : ∀ l : List TemperatureReading, l ≠ [] → l.length < uintModulus →
      (accumulateAll (p.reset now1 now2) l).measurement.Min ≤
        (accumulateAll (p.reset now1 now2) l).measurement.Average ∧
      (accumulateAll (p.reset now1 now2) l).measurement.Average ≤
        (accumulateAll (p.reset now1 now2) l).measurement.Max := by
    intro l hl hll
    cases l with
    | nil => exact absurd rfl hl
    | cons r rest => exact window_ordered p now1 now2 r rest hll
  refine ⟨key rs hne hlen, ?_⟩
  intro k hk hkl
  refine key (rs.take k) ?_ ?_
  · intro h
    have hl : (rs.take k).length = 0 := by rw [h]; rfl
    rw [List.length_take] at hl
    omega
  · rw [List.length_take]; omega

theorem C7_min_le_average_le_max_witness :
    ((accumulateAll
        (ReadingsProcessor.reset
          { readingCount := 7, measurement := sampleMeasurement 0 5,
            PublishingInterval := 2000000000 } 10 11)
        [{ Temperature := 3, TimeStamp := 20 }, { Temperature := -1, TimeStamp := 30 }]
      ).measurement.Min ≤
      (accumulateAll
        (ReadingsProcessor.reset
          { readingCount := 7, measurement := sampleMeasurement 0 5,
            PublishingInterval := 2000000000 } 10 11)
        [{ Temperature := 3, TimeStamp := 20 }, { Temperature := -1, TimeStamp := 30 }]
      ).measurement.Average) :=
  (C7_min_le_average_le_max
    { readingCount := 7, measurement := sampleMeasurement 0 5, PublishingInterval := 2000000000 }
    10 11 [{ Temperature := 3, TimeStamp := 20 }, { Temperature := -1, TimeStamp := 30 }]
    (by simp) (by simp [uintModulus])).1.1

/-- C10: for every non-empty list of values (fewer than `2 ^ 64`), folding `accumulateAverage`
from average 0 with the count running from 0 yields exactly the arithmetic mean; and if the
average is the mean of `n` values then `accumulateAverage` with a further value and count `n` is
the mean of the `n + 1` values. -/
theorem C10_accumulateAverage_is_mean (xs : List ℚ) (_hne : xs ≠ [])
    (hlen : xs.length < uintModulus) :
    averageFrom 0 0 xs = xs.sum / (xs.length : ℚ) ∧
    (∀ x : ℚ, xs.length + 1 < uintModulus →
      accumulateAverage (xs.sum / (xs.length : ℚ)) x xs.length =
        (xs.sum + x) / ((xs.length : ℚ) + 1)) := by
  constructor
  · have h := averageFrom_mean xs [] (by simpa using hlen)
    simpa [mean] using h
  · intro x hx
    have h := mean_append_singleton xs x hx
    simpa [mean] using h

theorem C10_accumulateAverage_is_mean_witness :
    averageFrom 0 0 [1, 2, 6] = ([1, 2, 6] : List ℚ).sum / (([1, 2, 6] : List ℚ).length : ℚ) :=
  (C10_accumulateAverage_is_mean [1, 2, 6] (by simp) (by simp [uintModulus])).1

/-- C9: after accumulating a non-empty sequence of readings (fewer than `2 ^ 64`) into a freshly
reset window, `Time.Start` is the timestamp of the first reading and `Time.End` that of the last,
and `shouldPublish` is true exactly when `Time.End.Sub(Time.Start) >= PublishingInterval`; every
measurement sent by `Run` has such a span of at least `PublishingInterval`.  When the interval is
a `Duration` above the least one, the span can be read as the exact difference of the two
timestamps. -/
theorem C9_window_is_reading_driven (p : ReadingsProcessor) (now1 now2 : Time)
    (rs : List TemperatureReading) (hne : rs ≠ []) (hlen : rs.length < uintModulus) :
    (accumulateAll (p.reset now1 now2) rs).measurement.Time.Start = (rs.head hne).TimeStamp ∧
    (accumulateAll (p.reset now1 now2) rs).measurement.Time.End = (rs.getLast hne).TimeStamp ∧
    ((accumulateAll (p.reset now1 now2) rs).shouldPublish = true ↔
      p.PublishingInterval ≤
        Time.Sub (accumulateAll (p.reset now1 now2) rs).measurement.Time.End
          (accumulateAll (p.reset now1 now2) rs).measurement.Time.Start) ∧
    (∀ received, ∀ m ∈ (p.Run now1 now2 received).2,
      p.PublishingInterval ≤ Time.Sub m.Time.End m.Time.Start) ∧
    (minDuration < p.PublishingInterval → p.PublishingInterval ≤ maxDuration →
      ((accumulateAll (p.reset now1 now2) rs).shouldPublish = true ↔
        p.PublishingInterval ≤ (rs.getLast hne).TimeStamp - (rs.head hne).TimeStamp) ∧
      (∀ received, ∀ m ∈ (p.Run now1 now2 received).2,
        p.PublishingInterval ≤ m.Time.End - m.Time.Start)) := by
  have hstart : (accumulateAll (p.reset now1 now2) rs).measurement.Time.Start =
      (rs.head hne).TimeStamp := by
    cases rs with
    | nil => exact absurd rfl hne
    | cons r rest => exact accumulateAll_start p now1 now2 r rest hlen
  have hend := accumulateAll_end rs hne (p.reset now1 now2)
  have hpub : (accumulateAll (p.reset now1 now2) rs).shouldPublish = true ↔
      p.PublishingInterval ≤
        Time.Sub (accumulateAll (p.reset now1 now2) rs).measurement.Time.End
          (accumulateAll (p.reset now1 now2) rs).measurement.Time.Start := by
    rw [shouldPublish_iff, accumulateAll_interval]
    rfl
  have hrun : ∀ received, ∀ m ∈ (p.Run now1 now2 received).2,
      p.PublishingInterval ≤ Time.Sub m.Time.End m.Time.Start :=
    fun received m hm => runLoop_emitted received (p.reset now1 now2) m hm
  refine ⟨hstart, hend, hpub, hrun, ?_⟩
  intro hmin hmax
  constructor
  · rw [hpub, hstart, hend]
    exact Sub_ge_iff _ _ _ hmin hmax
  · intro received m hm
    exact (Sub_ge_iff _ _ _ hmin hmax).mp (hrun received m hm)

theorem C9_window_is_reading_driven_witness :
    (accumulateAll
        (ReadingsProcessor.reset
          { readingCount := 7, measurement := sampleMeasurement 0 5,
            PublishingInterval := 2000000000 } 10 11)
        [{ Temperature := 3, TimeStamp := 20 }, { Temperature := -1, TimeStamp := 30 }]
      ).measurement.Time.Start = 20 :=
  (C9_window_is_reading_driven
    { readingCount := 7, measurement := sampleMeasurement 0 5, PublishingInterval := 2000000000 }
    10 11 [{ Temperature := 3, TimeStamp := 20 }, { Temperature := -1, TimeStamp := 30 }]
    (by simp) (by simp [uintModulus])).1

/-- C8: for every raw value `v` in `[0, 4095]` and every non-empty sequence of readings (fewer
than `2 ^ 64`) whose temperatures are all `rawTempToFloat v`, accumulating them into a freshly
reset window gives `Min`, `Max` and `Average` all equal to
`round2 ((v / 4095) * (50 - (-50)) + (-50))`; this is `-50` for `v = 0` and `50` for `v = 4095`. -/
theorem C8_constant_raw_samples (p : ReadingsProcessor) (now1 now2 : Time) (v : Nat)
    (stamps : List Time) (hv : v ≤ 4095) (hne : stamps ≠ [])
    (hlen : stamps.length < uintModulus) :
    ((accumulateAll (p.reset now1 now2)
        (stamps.map fun ts => { Temperature := rawTempToFloat v, TimeStamp := ts })
      ).measurement.Min = round2 (((v : ℚ) / 4095) * (50 - (-50)) + (-50)) ∧
     (accumulateAll (p.reset now1 now2)
        (stamps.map fun ts => { Temperature := rawTempToFloat v, TimeStamp := ts })
      ).measurement.Max = round2 (((v : ℚ) / 4095) * (50 - (-50)) + (-50)) ∧
     (accumulateAll (p.reset now1 now2)
        (stamps.map fun ts => { Temperature := rawTempToFloat v, TimeStamp := ts })
      ).measurement.Average = round2 (((v : ℚ) / 4095) * (50 - (-50)) + (-50))) ∧
    round2 ((((0 : Nat) : ℚ) / 4095) * (50 - (-50)) + (-50)) = -50 ∧
    round2 ((((4095 : Nat) : ℚ) / 4095) * (50 - (-50)) + (-50)) = 50 := by
  have hlow : round2 ((((0 : Nat) : ℚ) / 4095) * (50 - (-50)) + (-50)) = -50 := by
    have h := round2_eq_of_near (x := (((0 : Nat) : ℚ) / 4095) * (50 - (-50)) + (-50))
      (k := -5000) (by norm_num)
    rw [h]; norm_num
  have hhigh : round2 ((((4095 : Nat) : ℚ) / 4095) * (50 - (-50)) + (-50)) = 50 := by
    have h := round2_eq_of_near (x := (((4095 : Nat) : ℚ) / 4095) * (50 - (-50)) + (-50))
      (k := 5000) (by norm_num)
    rw [h]; norm_num
  refine ⟨?_, hlow, hhigh⟩
  rw [← rawTempToFloat_eq]
  cases stamps with
  | nil => exact absurd rfl hne
  | cons ts rest =>
    simp only [List.map_cons]
    refine constant_window (rawTempToFloat v) (rawTempToFloat_finite v hv) p now1 now2 _ _ ?_ ?_
    · intro r1 hr1
      rcases List.mem_cons.mp hr1 with h | h
      · rw [h]
      · obtain ⟨ts1, _, h1⟩ := List.mem_map.mp h
        rw [← h1]
    · simpa using hlen

theorem C8_constant_raw_samples_witness :
    (accumulateAll
        (ReadingsProcessor.reset
          { readingCount := 7, measurement := sampleMeasurement 0 5,
            PublishingInterval := 2000000000 } 10 11)
        ([20, 30, 40].map fun ts => { Temperature := rawTempToFloat 1000, TimeStamp := ts })
      ).measurement.Average = round2 ((((1000 : Nat) : ℚ) / 4095) * (50 - (-50)) + (-50)) :=
  (C8_constant_raw_samples
    { readingCount := 7, measurement := sampleMeasurement 0 5, PublishingInterval := 2000000000 }
    10 11 1000 [20, 30, 40] (by norm_num) (by simp) (by simp [uintModulus])).1.2.2

/-- C6: the code breaks the claim.  A processor with a publishing interval of 100 ms receives
the readings of the raw samples 2157 and 2357, taken 100 ms apart, in a freshly reset window.
`Run` sends one measurement, the window after the two readings, and its `Average` is 5.11: the
first average was stored as `round2 2.67399... = 2.67`, and the second update started from that
rounded value, `round2 (2.67 + (7.55799... - 2.67) / 2) = round2 5.11399...`.  The claim has
`round2` of the exact mean of the two temperatures, `round2 5.11599... = 5.12`.  No value in this
computation is near a rounding tie, so binary rounding of `float64` does not change it. -/
theorem C6_average_rounded_at_every_reading :
    (ReadingsProcessor.Run
        { readingCount := 0, measurement := sampleMeasurement 0 0,
          PublishingInterval := 100000000 } 0 0
        [({ Temperature := rawTempToFloat 2157, TimeStamp := 1000000000 }, 0, 0),
         ({ Temperature := rawTempToFloat 2357, TimeStamp := 1100000000 }, 0, 0)]).2 =
      [(accumulateAll
        (ReadingsProcessor.reset
          { readingCount := 0, measurement := sampleMeasurement 0 0,
            PublishingInterval := 100000000 } 0 0)
        [{ Temperature := rawTempToFloat 2157, TimeStamp := 1000000000 },
         { Temperature := rawTempToFloat 2357, TimeStamp := 1100000000 }]).measurement] ∧
    (accumulateAll
        (ReadingsProcessor.reset
          { readingCount := 0, measurement := sampleMeasurement 0 0,
            PublishingInterval := 100000000 } 0 0)
        [{ Temperature := rawTempToFloat 2157, TimeStamp := 1000000000 },
         { Temperature := rawTempToFloat 2357, TimeStamp := 1100000000 }]
      ).measurement.Average = 511 / 100 ∧
    round2 (mean (temperatures
        [{ Temperature := rawTempToFloat 2157, TimeStamp := 1000000000 },
         { Temperature := rawTempToFloat 2357, TimeStamp := 1100000000 }])) = 512 / 100 ∧
    (accumulateAll
        (ReadingsProcessor.reset
          { readingCount := 0, measurement := sampleMeasurement 0 0,
            PublishingInterval := 100000000 } 0 0)
        [{ Temperature := rawTempToFloat 2157, TimeStamp := 1000000000 },
         { Temperature := rawTempToFloat 2357, TimeStamp := 1100000000 }]
      ).measurement.Average ≠
      round2 (mean (temperatures
        [{ Temperature := rawTempToFloat 2157, TimeStamp := 1000000000 },
         { Temperature := rawTempToFloat 2357, TimeStamp := 1100000000 }])) := by
  have hs1 : (ReadingsProcessor.accumulate
      (ReadingsProcessor.reset
        { readingCount := 0, measurement := sampleMeasurement 0 0,
          PublishingInterval := 100000000 } 0 0)
      { Temperature := rawTempToFloat 2157, TimeStamp := 1000000000 }).shouldPublish = false := by
    decide
  have hs2 : (ReadingsProcessor.accumulate
      (ReadingsProcessor.accumulate
        (ReadingsProcessor.reset
          { readingCount := 0, measurement := sampleMeasurement 0 0,
            PublishingInterval := 100000000 } 0 0)
        { Temperature := rawTempToFloat 2157, TimeStamp := 1000000000 })
      { Temperature := rawTempToFloat 2357, TimeStamp := 1100000000 }).shouldPublish = true := by
    decide
  have h0 : (ReadingsProcessor.Run
        { readingCount := 0, measurement := sampleMeasurement 0 0,
          PublishingInterval := 100000000 } 0 0
        [({ Temperature := rawTempToFloat 2157, TimeStamp := 1000000000 }, 0, 0),
         ({ Temperature := rawTempToFloat 2357, TimeStamp := 1100000000 }, 0, 0)]).2 =
      [(accumulateAll
        (ReadingsProcessor.reset
          { readingCount := 0, measurement := sampleMeasurement 0 0,
            PublishingInterval := 100000000 } 0 0)
        [{ Temperature := rawTempToFloat 2157, TimeStamp := 1000000000 },
         { Temperature := rawTempToFloat 2357, TimeStamp := 1100000000 }]).measurement] := by
    simp only [ReadingsProcessor.Run, ReadingsProcessor.runLoop, ReadingsProcessor.runStep, hs1,
      hs2, if_true, Bool.false_eq_true, if_false, Option.toList_none, Option.toList_some,
      List.nil_append, List.append_nil]
    rfl
  have h1 : (accumulateAll
        (ReadingsProcessor.reset
          { readingCount := 0, measurement := sampleMeasurement 0 0,
            PublishingInterval := 100000000 } 0 0)
        [{ Temperature := rawTempToFloat 2157, TimeStamp := 1000000000 },
         { Temperature := rawTempToFloat 2357, TimeStamp := 1100000000 }]
      ).measurement.Average = 511 / 100 := by
    rw [accumulateAll_average]
    norm_num [ReadingsProcessor.reset, temperatures, roundedAverageFrom, accumulateAverage,
      round2, mathRound, rawTempToFloat, lerp, MAX_RAW_READING, MIN_TEMP, MAX_TEMP, uintModulus]
  have h2 : round2 (mean (temperatures
        [{ Temperature := rawTempToFloat 2157, TimeStamp := 1000000000 },
         { Temperature := rawTempToFloat 2357, TimeStamp := 1100000000 }])) = 512 / 100 := by
    norm_num [temperatures, mean, round2, mathRound, rawTempToFloat, lerp, MAX_RAW_READING,
      MIN_TEMP, MAX_TEMP]
  refine ⟨h0, h1, h2, ?_⟩
  rw [h1, h2]
  norm_num

end TemperatureSensor
